import Mathlib

set_option maxHeartbeats 1000000

/-! Verification development for the pydra dataflow engine core
(`src/pydra/engine/node.py`, `src/pydra/engine/helpers.py`).

The Python code is shallowly embedded: dictionaries become association
lists (`List (String × _)`) so that insertion order — which Python 3.7+
dicts preserve and which the code observes — is captured; fallible
methods return `Except String`; attribute state becomes structures that
are threaded explicitly.  Parts of the repository that `node.py` imports
but that are not present under `src/` (`state.py`, `auxiliary.py`) are
either taken as parameters (values computed by `state.State`) or
modelled from the spec (`aux.change_splitter`), as indicated in the
doc comment of each definition. -/

namespace Pydra

/-- Python runtime values as far as the engine observes them: the engine
only ever tests truthiness of outputs and stringifies state values, so a
small universe of `None`, integers, strings and lists suffices. -/
inductive PyVal where
  | none
  | int (n : Int)
  | str (s : String)
  | lst (l : List PyVal)

mutual

/-- Python `str()` as used by `"{}:{}".format(i, j)` in directory-name
construction: integers print in decimal, strings print as themselves,
lists print bracketed and comma-separated (element quoting left out —
the rendering is opaque to every property proved here). -/
def py_str : PyVal → String
  | .none => "None"
  | .int n => toString n
  | .str s => s
  | .lst l => "[" ++ String.intercalate ", " (py_str_list l) ++ "]"

/-- Stringification of the elements of a Python list, in order. -/
def py_str_list : List PyVal → List String
  | [] => []
  | x :: xs => py_str x :: py_str_list xs

end

/-- Python truthiness (`bool(v)`): `None`, `0`, `""` and `[]` are falsy,
everything else in the modelled universe is truthy. -/
def truthy : PyVal → Bool
  | .none => false
  | .int n => decide (n ≠ 0)
  | .str s => decide (s ≠ "")
  | .lst l => !l.isEmpty

/-- NodeBase._directory_name_state_surv (node.py:371-381): keep only the
state-dictionary entries whose key occurs in
`self.state._splitter_rpn + self.state._inner_splitter` (the two lists
are parameters here because `state.py` is not under `src/`; only their
concatenation is consulted), then join `key:value` pairs with `_`.  The
state dictionary is an association list: Python dicts preserve insertion
order and the generator `dict((key, val) for (key, val) in
state_dict.items() if ...)` iterates in exactly that order — no sorting
happens in this method. -/
def directory_name_state_surv (splitter_rpn inner_splitter : List String)
    (state_dict : List (String × PyVal)) : String × List (String × PyVal) :=
  let state_surv_dict :=
    state_dict.filter (fun kv => (splitter_rpn ++ inner_splitter).contains kv.1)
  (String.intercalate "_" (state_surv_dict.map (fun kv => kv.1 ++ ":" ++ py_str kv.2)),
   state_surv_dict)

/-- Ordering of association-list entries by key: the relation under which
a state dictionary is "in sorted key order". -/
def key_lt (p q : String × PyVal) : Prop := p.1 < q.1

/-- Modelled from the spec: a splitter variable, a field name optionally
qualified by a node name (spec 3: leaves are "field names (qualified
`node.field`)").  The concrete string representation lives in
`auxiliary.py`, which is not under `src/`. -/
structure QVar where
  ns : Option String
  field : String
deriving DecidableEq

/-- Modelled from the spec: a splitter expression, "a tree whose leaves
are field names ... and whose internal nodes are one of two operators:
scalar `.` ... and outer `×`" (spec 3).  The parser for the concrete
string/list/tuple syntax lives in `auxiliary.py`, not under `src/`. -/
inductive Splitter where
  | leaf (v : QVar)
  | scalar (a b : Splitter)
  | outer (a b : Splitter)
deriving DecidableEq

/-- Modelled from the spec: `aux.change_splitter(splitter, name)` from
`auxiliary.py` (not under `src/`); spec 4.A calls it
`prepend_namespace(rpn, node_name)` and says it "rewrites each
unqualified leaf to `node.leaf`".  Already-qualified leaves are left
unchanged. -/
def change_splitter (name : String) : Splitter → Splitter
  | .leaf v => if v.ns.isNone then .leaf ⟨some name, v.field⟩ else .leaf v
  | .scalar a b => .scalar (change_splitter name a) (change_splitter name b)
  | .outer a b => .outer (change_splitter name a) (change_splitter name b)

/-- Python truthiness of a splitter value: the only falsy splitter value
is the empty, unqualified string `""`; every other string and every
non-empty list/tuple is truthy. -/
def splitter_truthy : Splitter → Bool
  | .leaf v => !(v.ns.isNone && v.field == "")
  | .scalar _ _ => true
  | .outer _ _ => true

/-- Truthiness of `self._splitter`, which is `None` or a splitter. -/
def opt_splitter_truthy : Option Splitter → Bool
  | Option.none => false
  | some s => splitter_truthy s

/-- Node state as manipulated by `NodeBase.split/combine` and by
`Workflow.preparing` (node.py).  Python attributes become fields;
dictionaries (`inputs`, `state_inputs`) become insertion-ordered
association lists.  `needed_outputs` stores the upstream node by name
(the source stores the object itself).  `ready2run_cleared` records the
attribute assignment `nn.ready2run = False` done by
`Workflow.preparing`; `state_prepared` records that
`prepare_state_input` ran (the `state.State` it builds lives in
`state.py`, not under `src/`). -/
structure NodeBase where
  name : String
  splitter : Option Splitter
  combiner : List QVar
  inputs : List (String × PyVal)
  state_inputs : List (String × PyVal)
  workingdir : String
  is_complete : Bool
  ready2run_cleared : Bool
  needed_outputs : List (String × String × String)
  inner_inputs_names : List String
  state_prepared : Bool

/-- Python dict lookup `d.get(k)` on an insertion-ordered association
list: the value at the first matching key, if any. -/
def assoc_find {α : Type} (q : String) : List (String × α) → Option α
  | [] => Option.none
  | kv :: rest => if kv.1 = q then some kv.2 else assoc_find q rest

/-- Python dict assignment `d[k] = v` on an insertion-ordered
association list: overwrite in place if the key is present, else append. -/
def assoc_set (m : List (String × PyVal)) (k : String) (v : PyVal) :
    List (String × PyVal) :=
  if (assoc_find k m).isSome then m.map (fun p => if p.1 = k then (k, v) else p)
  else m ++ [(k, v)]

/-- Python `dict.update`: apply every assignment of the second dict to
the first, in order. -/
def assoc_update (m kvs : List (String × PyVal)) : List (String × PyVal) :=
  kvs.foldl (fun acc kv => assoc_set acc kv.1 kv.2) m

/-- NodeBase.splitter setter (node.py:166-170): raise when a truthy
splitter is already stored and differs from the new expression,
otherwise store `aux.change_splitter(splitter, self.name)`. -/
def splitter_setter (nd : NodeBase) (new : Splitter) : Except String NodeBase :=
  if opt_splitter_truthy nd.splitter = true ∧ nd.splitter ≠ some new
  then .error "splitter is already set"
  else .ok { nd with splitter := some (change_splitter nd.name new) }

/-- NodeBase.split (node.py:210-215): assign through the splitter setter;
when keyword inputs are supplied, bind them with `dc.replace` and record
them as `state_inputs`. -/
def split (nd : NodeBase) (splitter : Splitter)
    (kwargs : List (String × PyVal)) : Except String NodeBase :=
  match splitter_setter nd splitter with
  | .error e => .error e
  | .ok nd1 =>
    if kwargs.isEmpty then .ok nd1
    else .ok { nd1 with inputs := assoc_update nd1.inputs kwargs,
                        state_inputs := kwargs }

/-- Argument to `NodeBase.combine`: a string, a list of variable names,
or anything else (which the setter rejects). -/
inductive CombArg where
  | str (s : String)
  | lst (l : List QVar)
  | other
deriving DecidableEq

/-- Modelled from the spec: `aux.change_splitter` applied to one
combiner variable — qualify it with the node name when unqualified
(`auxiliary.py` is not under `src/`). -/
def qualify_var (name : String) (v : QVar) : QVar :=
  if v.ns.isNone then ⟨some name, v.field⟩ else v

/-- NodeBase.combiner setter (node.py:176-186): raise when a (non-empty)
combiner is already stored — with no equality carve-out; raise when no
truthy splitter is set; coerce a string to a one-element list; reject
non-list non-string arguments; store the variables qualified by
`aux.change_splitter`. -/
def combiner_setter (nd : NodeBase) (c : CombArg) : Except String NodeBase :=
  if nd.combiner.isEmpty = false then .error "combiner is already set"
  else if opt_splitter_truthy nd.splitter = false
  then .error "splitter has to be set before setting combiner"
  else match c with
    | .str s => .ok { nd with combiner := [qualify_var nd.name ⟨Option.none, s⟩] }
    | .lst l => .ok { nd with combiner := l.map (qualify_var nd.name) }
    | .other => .error "combiner should be a string or a list"

/-- NodeBase.combine (node.py:217-219): assign through the combiner
setter and return the node. -/
def combine (nd : NodeBase) (c : CombArg) : Except String NodeBase :=
  combiner_setter nd c

/-- An upstream node as seen by `ready2run`: the `is_complete` field is
the ground-truth completion status (in the source, whether every result
of the node is saved), which `is_finished` never consults. -/
structure UpstreamNode where
  name : String
  is_complete : Bool

/-- NodeBase.is_finished (node.py:128-130): the body is literally
`return False` under a `# TODO: check local procs` comment — neither the
index nor the node's actual completion status is consulted, and no
subclass in `src/` overrides it. -/
def is_finished (_node : UpstreamNode) (_index : Option Nat) : Bool := false

/-- NodeBase.ready2run (node.py:121-126): return False as soon as one
entry of `needed_outputs` has `is_finished(index)` false, else True. -/
def ready2run (needed_outputs : List (UpstreamNode × String × String))
    (index : Option Nat) : Bool :=
  needed_outputs.all (fun t => is_finished t.1 index)

/-- Keyword parameters accepted by `NodeBase.__init__` (node.py:31-33):
`name, splitter, combiner, inputs, write_state` — and nothing else (the
signature has no `**kwargs`). -/
def nodebase_init_params : List String :=
  ["name", "splitter", "combiner", "inputs", "write_state"]

/-- Keyword arguments that `Node.__init__` (node.py:467-473) passes to
`super().__init__`: note `other_splitters`, which `NodeBase.__init__`
does not accept. -/
def node_init_super_kwargs : List String :=
  ["name", "splitter", "inputs", "other_splitters", "write_state", "combiner"]

/-- Python call semantics: a call binds iff every supplied keyword names
a parameter of the callee. -/
def accepts_kwargs (params kwargs : List String) : Bool :=
  kwargs.all params.contains

/-- Arguments of `Node.__init__` (node.py:467-470); their values are
irrelevant to the TypeError, which depends only on the keyword names. -/
structure NodeInitArgs where
  name : String
  inputs : Option PyVal
  splitter : Option Splitter
  workingdir : Option String
  other_splitters : Option PyVal
  write_state : Bool
  combiner : Option PyVal

/-- Node.__init__ (node.py:467-473): the body immediately calls
`super().__init__` with the keywords `node_init_super_kwargs`; Python
raises TypeError before entering `NodeBase.__init__` when a keyword is
not among the callee's parameters, so the rest of the constructor
(setting `workingdir`, `results_dict`, ...) is unreachable. -/
def node_init (args : NodeInitArgs) : Except String NodeInitArgs :=
  if accepts_kwargs nodebase_init_params node_init_super_kwargs
  then .ok args
  else .error "TypeError: __init__() got an unexpected keyword argument other_splitters"

/-- Concrete node with its splitter already set (to `A.x`, namespaced by
the setter), used to exercise a second `split` call. -/
def nd_c4 : NodeBase :=
  { name := "A", splitter := some (.leaf ⟨some "A", "x"⟩), combiner := [],
    inputs := [], state_inputs := [], workingdir := "", is_complete := false,
    ready2run_cleared := false, needed_outputs := [], inner_inputs_names := [],
    state_prepared := false }

/-- Concrete node with splitter and combiner already set (combiner
`["A.x"]`), used to exercise a second `combine` call. -/
def nd_c5 : NodeBase :=
  { name := "A", splitter := some (.leaf ⟨some "A", "x"⟩),
    combiner := [⟨some "A", "x"⟩],
    inputs := [], state_inputs := [], workingdir := "", is_complete := false,
    ready2run_cleared := false, needed_outputs := [], inner_inputs_names := [],
    state_prepared := false }

/-- One cache root as `load_result` observes it: whether the directory
named by a checksum exists under the root, and the `_result.pklz` file
inside it (`Option.none` = file missing, `some bytes` = file with that
content; the file's `st_size` is the length).  Deserialisation
(`cp.loads`) is an external collaborator, so a loaded result is its raw
bytes. -/
structure CacheRoot where
  hasDir : String → Bool
  resultFile : String → Option (List Nat)

/-- load_result (helpers.py:72-93): an empty root list returns None; the
roots are walked in order; at the first root whose `checksum` directory
exists, return the deserialised `_result.pklz` when it exists with
positive size and None otherwise — without consulting later roots; if no
root has the directory, return None. -/
def load_result (checksum : String) : List CacheRoot → Option (List Nat)
  | [] => Option.none
  | loc :: rest =>
    if loc.hasDir checksum then
      match loc.resultFile checksum with
      | some bytes => if 0 < bytes.length then some bytes else Option.none
      | Option.none => Option.none
    else load_result checksum rest

/-- Cache root without the checksum directory. -/
def root_miss : CacheRoot := ⟨fun _ => false, fun _ => Option.none⟩

/-- Cache root whose checksum directory holds an empty result file. -/
def root_empty : CacheRoot := ⟨fun _ => true, fun _ => some []⟩

/-- Cache root whose checksum directory holds a non-empty result file. -/
def root_full : CacheRoot := ⟨fun _ => true, fun _ => some [1, 2]⟩

/-- itertools.product over the per-axis element lists
(`state.all_elements`): multi-indices with the leftmost axis most
significant, i.e. lexicographically ascending when each axis list is
ascending. -/
def pyproduct : List (List Nat) → List (List Nat)
  | [] => [[]]
  | axis :: rest => (axis.map (fun i => (pyproduct rest).map (fun t => i :: t))).flatten

/-- Node._check_all_results (node.py:540-566), branch without inner
splitter and with `write_state` true: every element index (the product
of `state.all_elements`) must have, under its directory name, a truthy
value for every output field; the source returns False at the first
falsy `getattr(self.results_dict[dir_nm_el].output, key_out)`, which is
the same Boolean as this `all`-of-`all`.  `state_values` (the state
dictionary of an index) comes from `state.py`, not under `src/`, and is
a parameter; `results dir key_out` stands for
`getattr(results_dict[dir].output, key_out)`. -/
def check_all_results (all_elements : List (List Nat))
    (state_values : List Nat → List (String × PyVal))
    (splitter_rpn inner_splitter : List String)
    (output_names : List String) (results : String → String → PyVal) : Bool :=
  (pyproduct all_elements).all (fun ind =>
    output_names.all (fun key_out =>
      truthy (results
        (directory_name_state_surv splitter_rpn inner_splitter (state_values ind)).1
        key_out)))

/-- One incoming edge of `needed_outputs` as `get_input_el` reads it:
the upstream node's name, its surviving-key lists (from its state), the
upstream results projected to `from_socket` (`from_results dir` stands
for `getattr(from_node.results_dict[dir].output, from_socket)`), and the
local socket name. -/
structure InEdge where
  from_name : String
  from_splitter_rpn : List String
  from_inner_splitter : List String
  from_results : String → PyVal
  to_socket : String

/-- NodeBase.get_input_el (node.py:229-289), loop over `needed_outputs`
in the branch where the upstream node has no inner splitters and no
combiner: compute the upstream directory name from the state dictionary,
read the upstream output, bind it into `inputs_dict` when truthy and
raise "output from ... doesnt exist" when falsy. -/
def get_input_el_loop (self_name : String) (state_dict : List (String × PyVal)) :
    List InEdge → List (String × PyVal) → Except String (List (String × PyVal))
  | [], inputs_dict => .ok inputs_dict
  | e :: rest, inputs_dict =>
    if truthy (e.from_results
        (directory_name_state_surv e.from_splitter_rpn e.from_inner_splitter state_dict).1)
        = true then
      get_input_el_loop self_name state_dict rest
        (assoc_set inputs_dict (self_name ++ "." ++ e.to_socket)
          (e.from_results
            (directory_name_state_surv e.from_splitter_rpn e.from_inner_splitter state_dict).1))
    else .error ("output from " ++ e.from_name ++ " doesnt exist")

/-- Concrete upstream edge whose stored output is the falsy empty list. -/
def edge_c10 : InEdge := ⟨"A", ["A.x"], [], fun _ => .lst [], "inp"⟩

/-- Reduced directory key used by `NodeBase._combined_output`
(node.py:435-443): join the `key:value` pairs of the state dictionary
whose key is not eliminated by the combiner.  The removal list
(`self.state.comb_inp_to_remove + self.state._inner_combiner`) is
computed in `state.py`, not under `src/`, so its concatenation is a
parameter. -/
def comb_dir_name (comb_inp_to_remove : List String)
    (state_dict : List (String × PyVal)) : String :=
  String.intercalate "_"
    ((state_dict.filter (fun kv => !(comb_inp_to_remove.contains kv.1))).map
      (fun kv => kv.1 ++ ":" ++ py_str kv.2))

/-- NodeBase._combined_output (node.py:435-443): append the element's
output value to the bucket keyed by the reduced directory name, creating
a new bucket (at the end of the insertion-ordered output dict) when the
key is not present yet. -/
def combined_output (comb_inp_to_remove : List String)
    (out : List (String × List PyVal)) (state_dict : List (String × PyVal))
    (output_el : PyVal) : List (String × List PyVal) :=
  if (assoc_find (comb_dir_name comb_inp_to_remove state_dict) out).isSome then
    out.map (fun p =>
      if p.1 = comb_dir_name comb_inp_to_remove state_dict
      then (p.1, p.2 ++ [output_el]) else p)
  else out ++ [(comb_dir_name comb_inp_to_remove state_dict, [output_el])]

/-- Node.get_output (node.py:502-536), branch with a splitter (no inner
splitter) and a combiner, restricted to one output field: iterate the
element multi-indices in `itertools.product(*state.all_elements)` order;
for each index read the element's output under its directory name
(`results dir` stands for
`getattr(self.results_dict[dir].output, key_out)`) and feed it to
`_combined_output`, keyed by the full state dictionary of the index.
`state_values` comes from `state.py`, not under `src/`, and is a
parameter. -/
def node_get_output_comb (all_elements : List (List Nat))
    (state_values : List Nat → List (String × PyVal))
    (splitter_rpn inner_splitter comb_inp_to_remove : List String)
    (results : String → PyVal) : List (String × List PyVal) :=
  (pyproduct all_elements).foldl
    (fun acc ind =>
      combined_output comb_inp_to_remove acc (state_values ind)
        (results (directory_name_state_surv splitter_rpn inner_splitter
          (state_values ind)).1))
    []

/-- One entry of `wf_output_names` (node.py:658-665): Python tuples of
length 2 (`(node, out)` — exposed under the node-local name), length 3
(`(node, out_node_name, out_wf_name)`), or any other length (rejected). -/
inductive WfOut where
  | two (node_nm out_nm : String)
  | three (node_nm out_nd_nm out_wf_nm : String)
  | badLen
deriving DecidableEq

/-- The workflow-level name under which an entry is exposed. -/
def exposed : WfOut → Option String
  | .two _ o => some o
  | .three _ _ w => some w
  | .badLen => Option.none

/-- Workflow.get_output (node.py:650-685), loop over `wf_output_names`
in the branch where the workflow itself has no splitter: for each entry
take its exposed name (raising on a malformed length), raise
"the key ... is already used in workflow.result" when `_output` already
holds the name, and otherwise store `node_outputs[node_nm][out_nd_nm]`
(here `node_outputs n f`, a parameter: the child nodes' collected
outputs).  `_output` starts empty at collection time (it is initialised
by the submitter, which is not under `src/`). -/
def wf_collect_outputs (node_outputs : String → String → PyVal) :
    List WfOut → List (String × PyVal) → Except String (List (String × PyVal))
  | [], acc => .ok acc
  | WfOut.two n f :: rest, acc =>
    if (assoc_find f acc).isSome
    then .error ("the key " ++ f ++ " is already used in workflow.result")
    else wf_collect_outputs node_outputs rest (acc ++ [(f, node_outputs n f)])
  | WfOut.three n f w :: rest, acc =>
    if (assoc_find w acc).isSome
    then .error ("the key " ++ w ++ " is already used in workflow.result")
    else wf_collect_outputs node_outputs rest (acc ++ [(w, node_outputs n f)])
  | WfOut.badLen :: _, _ => .error "wf_output_names should have 2 or 3 elements"

/-- The workflow attributes read by `Workflow.preparing`
(node.py:778-830).  `splitter_rpn`/`inner_splitter` are the workflow
state's surviving-key lists and `splitter_comb nm` is
`node(nm).state.splitter_comb` — all computed in `state.py`, which is
not under `src/`, hence parameters.  `connected_var` maps a node name to
its recorded incoming connections `(to_socket, from_node, from_socket)`;
`Option.none` models the `KeyError` that the source catches (the
connection loop is skipped). -/
structure WfPrep where
  name : String
  workingdir : String
  splitter : Option Splitter
  write_state : Bool
  splitter_rpn : List String
  inner_splitter : List String
  needed_inp_wf : List (String × String × String)
  graph_sorted : List String
  connected_var : String → Option (List (String × String × String))
  splitter_comb : String → Splitter
  wf_output_names : List WfOut

/-- In-place mutation of the node registered under a name (the source
mutates the node object held by the workflow's graph). -/
def update_node (nodes : List NodeBase) (nm : String)
    (f : NodeBase → NodeBase) : List NodeBase :=
  nodes.map (fun n => if n.name = nm then f n else n)

/-- The node object registered under a name. -/
def lookup_node (nodes : List NodeBase) (nm : String) : Option NodeBase :=
  nodes.find? (fun n => n.name == nm)

/-- os.path.join on already-relative, slash-free components: empty
components are skipped, the rest are joined with `/`. -/
def os_path_join (parts : List String) : String :=
  parts.foldl
    (fun acc p => if p = "" then acc else if acc = "" then p else acc ++ "/" ++ p) ""

/-- Workflow.preparing, first loop (node.py:781-793): for every
`(node_nm, inp_wf, inp_nd)` recorded by `connect_wf_input`, look
`wfname.inp_wf` up in `wf_inputs`; bind the value into the child's
`state_inputs` and `inputs` under `node_nm.inp_nd`, or raise
"... not in the workflow inputs" at the first miss.  The returned pair
is the node states at exit together with the error, if any — in Python
the mutations made before the exception persist. -/
def prep_inputs_loop (wfname : String) (wf_inputs : List (String × PyVal))
    (nodes : List NodeBase) :
    List (String × String × String) → List NodeBase × Option String
  | [] => (nodes, Option.none)
  | (node_nm, inp_wf, inp_nd) :: rest =>
    match assoc_find (wfname ++ "." ++ inp_wf) wf_inputs with
    | some v =>
      prep_inputs_loop wfname wf_inputs
        (update_node nodes node_nm (fun n =>
          { n with
            state_inputs := assoc_set n.state_inputs (node_nm ++ "." ++ inp_nd) v,
            inputs := assoc_set n.inputs (node_nm ++ "." ++ inp_nd) v })) rest
    | Option.none => (nodes, some (wfname ++ "." ++ inp_wf ++ " not in the workflow inputs"))

/-- Workflow.preparing, one iteration of the connection loop
(node.py:806-821) for node `nn_nm` and connection
`(inp, from_node, from_var)`: clear the node's `ready2run` attribute,
merge the upstream `state_inputs`, append to `needed_outputs`, and —
when the node has no truthy splitter or its splitter equals the
upstream's, and the upstream splitter is truthy — inherit the upstream
splitter through the splitter *setter* (which namespaces the value and
can raise): `state.splitter_comb` of the upstream when it has a
combiner, its plain splitter otherwise.  The partial-input bookkeeping
(`partial_split_input`/`partial_comb_input`, values computed in the
absent `state.py`) carries no control flow and is not modelled. -/
def conn_step (splitter_comb : String → Splitter) (nodes : List NodeBase)
    (nn_nm : String) : String × String × String → Except String (List NodeBase)
  | (inp, from_nm, from_var) =>
    match lookup_node nodes from_nm, lookup_node nodes nn_nm with
    | some out_node, some nn =>
      let nn1 : NodeBase := { nn with
        ready2run_cleared := true,
        state_inputs := assoc_update nn.state_inputs out_node.state_inputs,
        needed_outputs := nn.needed_outputs ++ [(from_nm, from_var, inp)] }
      if (opt_splitter_truthy nn1.splitter = false ∨ nn1.splitter = out_node.splitter)
          ∧ opt_splitter_truthy out_node.splitter = true then
        if out_node.combiner.isEmpty = false then
          match splitter_setter nn1 (splitter_comb from_nm) with
          | .error e => .error e
          | .ok nn2 => .ok (update_node nodes nn_nm (fun _ => nn2))
        else
          match out_node.splitter with
          | some os =>
            match splitter_setter nn1 os with
            | .error e => .error e
            | .ok nn2 => .ok (update_node nodes nn_nm (fun _ => nn2))
          | Option.none => .ok (update_node nodes nn_nm (fun _ => nn1))
      else .ok (update_node nodes nn_nm (fun _ => nn1))
    | _, _ => .ok nodes

/-- The connection loop of `Workflow.preparing` for one node: fold
`conn_step` over the recorded connections, propagating the first raise. -/
def conn_fold (splitter_comb : String → Splitter) (nodes : List NodeBase)
    (nn_nm : String) : List (String × String × String) → Except String (List NodeBase)
  | [] => .ok nodes
  | c :: rest =>
    match conn_step splitter_comb nodes nn_nm c with
    | .error e => .error e
    | .ok ns => conn_fold splitter_comb ns nn_nm rest

/-- Workflow.preparing, per-node loop (node.py:794-830): for each child
in topological order compute the workflow element directory (empty when
the workflow splitter is falsy; from `st_inputs`, defaulted to
`wf_inputs`, when `write_state`, from `wf_inputs_ind` otherwise), set
the child's working directory and clear its completeness, run the
connection loop (skipped entirely when `connected_var` raises KeyError),
then set `inner_inputs_names` from `needed_outputs` and run
`prepare_state_input`.  On a raise inside the connection loop the error
is returned with the pre-loop node states (only the error and phase
ordering are inspected by the theorems below). -/
def prep_nodes_loop (wf : WfPrep)
    (wf_inputs wf_inputs_ind st_inputs : List (String × PyVal))
    (nodes : List NodeBase) : List String → List NodeBase × Option String
  | [] => (nodes, Option.none)
  | nn_nm :: rest =>
    let dir0 :=
      if wf.write_state then
        (directory_name_state_surv wf.splitter_rpn wf.inner_splitter
          (if st_inputs.isEmpty then wf_inputs else st_inputs)).1
      else
        (directory_name_state_surv wf.splitter_rpn wf.inner_splitter wf_inputs_ind).1
    let dir_nm_el := if opt_splitter_truthy wf.splitter = false then "" else dir0
    let nodes1 := update_node nodes nn_nm (fun nn =>
      { nn with workingdir := os_path_join [wf.workingdir, dir_nm_el, nn_nm],
                is_complete := false })
    match (match wf.connected_var nn_nm with
           | some conns => conn_fold wf.splitter_comb nodes1 nn_nm conns
           | Option.none => .ok nodes1) with
    | .error e => (nodes1, some e)
    | .ok nodes2 =>
      prep_nodes_loop wf wf_inputs wf_inputs_ind st_inputs
        (update_node nodes2 nn_nm (fun nn =>
          { nn with inner_inputs_names := nn.needed_outputs.map (fun t => t.2.2),
                    state_prepared := true })) rest

/-- Workflow.preparing (node.py:778-830): the `needed_inp_wf` loop runs
first and aborts preparation at the first workflow input missing from
`wf_inputs`; only then does the per-node loop set working directories,
process connections and prepare each child's state.  `wf_output_names`
is never consulted. -/
def preparing (wf : WfPrep) (nodes : List NodeBase)
    (wf_inputs wf_inputs_ind st_inputs : List (String × PyVal)) :
    List NodeBase × Option String :=
  match prep_inputs_loop wf.name wf_inputs nodes wf.needed_inp_wf with
  | (nodes1, some e) => (nodes1, some e)
  | (nodes1, Option.none) =>
    prep_nodes_loop wf wf_inputs wf_inputs_ind st_inputs nodes1 wf.graph_sorted

/-- Fresh child node, as `Workflow.add` would register it. -/
def node_w : NodeBase :=
  { name := "A", splitter := Option.none, combiner := [], inputs := [],
    state_inputs := [], workingdir := "", is_complete := false,
    ready2run_cleared := false, needed_outputs := [], inner_inputs_names := [],
    state_prepared := false }

/-- Workflow whose `wf_output_names` expose the name "out" twice. -/
def wf8 : WfPrep :=
  { name := "wf", workingdir := "/wd", splitter := Option.none, write_state := true,
    splitter_rpn := [], inner_splitter := [], needed_inp_wf := [],
    graph_sorted := ["A"], connected_var := fun _ => Option.none,
    splitter_comb := fun _ => .leaf ⟨Option.none, ""⟩,
    wf_output_names := [.two "A" "out", .two "B" "out"] }

/-- Workflow with one `connect_wf_input` binding (`in1` → node A's `a`)
whose workflow-level input is absent from the inputs passed to
`preparing`. -/
def wf9 : WfPrep :=
  { name := "wf", workingdir := "/wd", splitter := Option.none, write_state := true,
    splitter_rpn := [], inner_splitter := [], needed_inp_wf := [("A", "in1", "a")],
    graph_sorted := ["A"], connected_var := fun _ => Option.none,
    splitter_comb := fun _ => .leaf ⟨Option.none, ""⟩,
    wf_output_names := [] }

end Pydra

namespace Pydra

/-- Claim C1 (counterexample): `_directory_name_state_surv` is *not* a pure
function of the key-to-value mapping: the two state dictionaries
`{"b": 2, "a": 1}` and `{"a": 1, "b": 2}` hold the same pairs (they are
permutations of one another) yet produce different directory-name
strings (`"b:2_a:1"` vs `"a:1_b:2"`), because the method preserves the
dictionary's insertion order instead of sorting by key. -/
theorem dir_name_depends_on_insertion_order :
    (directory_name_state_surv ["a", "b"] [] [("b", .int 2), ("a", .int 1)]).1
      ≠ (directory_name_state_surv ["a", "b"] [] [("a", .int 1), ("b", .int 2)]).1
    ∧ List.Perm [(("b" : String), PyVal.int 2), ("a", .int 1)]
        [(("a" : String), PyVal.int 1), ("b", .int 2)] := by
  refine ⟨?_, List.Perm.swap _ _ _⟩
  show ("b:2_a:1" : String) ≠ "a:1_b:2"
  decide

/-- Claim C1 (amended): the directory name concatenates the surviving
`key:value` pairs in the state dictionary's own (insertion) order, so it
is a pure function of the *ordered sequence* of pairs; two state
dictionaries holding the same pairs yield identical strings when both
present them in the same canonical order — in particular when both are
in strictly sorted key order. -/
theorem dir_name_sorted_deterministic (splitter_rpn inner_splitter : List String)
    (d1 d2 : List (String × PyVal))
    (hperm : List.Perm d1 d2)
    (h1 : d1.Sorted key_lt) (h2 : d2.Sorted key_lt) :
    directory_name_state_surv splitter_rpn inner_splitter d1
      = directory_name_state_surv splitter_rpn inner_splitter d2 := by
  haveI : IsAntisymm (String × PyVal) key_lt :=
    ⟨fun a b hab hba => absurd hba (lt_asymm hab)⟩
  rw [List.eq_of_perm_of_sorted hperm h1 h2]

/-- Witness for `dir_name_sorted_deterministic` at a concrete sorted
dictionary. -/
theorem dir_name_sorted_deterministic_witness :
    directory_name_state_surv ["a", "b"] [] [("a", .int 1), ("b", .int 2)]
      = directory_name_state_surv ["a", "b"] [] [("a", .int 1), ("b", .int 2)] :=
  dir_name_sorted_deterministic ["a", "b"] [] _ _ (List.Perm.refl _)
    (by refine List.Pairwise.cons ?_ (List.pairwise_singleton _ _)
        simp [key_lt]; decide)
    (by refine List.Pairwise.cons ?_ (List.pairwise_singleton _ _)
        simp [key_lt]; decide)

/-- Claim C2 (evaluation at the failing input): for a node whose
`needed_outputs` names one upstream node that is actually complete
(`is_complete = true`), `ready2run` nevertheless returns `false`,
because `NodeBase.is_finished` is a stub that unconditionally returns
`False` — contradicting the claim that `ready2run` is true once every
upstream node is complete at the matching index. -/
theorem ready2run_false_despite_finished_upstream :
    ready2run [({ name := "A", is_complete := true }, "out", "x")] Option.none = false
    ∧ ({ name := "A", is_complete := true } : UpstreamNode).is_complete = true :=
  ⟨rfl, rfl⟩

/-- Claim C3: constructing a `Node` always raises TypeError, for every
combination of argument values: `Node.__init__` forwards the keyword
`other_splitters` to `NodeBase.__init__`, whose parameter list does not
contain it. -/
theorem node_init_always_type_error (args : NodeInitArgs) :
    node_init args
        = .error "TypeError: __init__() got an unexpected keyword argument other_splitters"
    ∧ "other_splitters" ∈ node_init_super_kwargs
    ∧ "other_splitters" ∉ nodebase_init_params := by
  have h : accepts_kwargs nodebase_init_params node_init_super_kwargs = false := by decide
  exact ⟨by simp [node_init, h], by decide, by decide⟩

/-- Namespacing a splitter twice equals namespacing it once: a qualified
leaf is left unchanged by `change_splitter`. -/
theorem change_splitter_idem (name : String) (s : Splitter) :
    change_splitter name (change_splitter name s) = change_splitter name s := by
  induction s with
  | leaf v => by_cases h : v.ns.isNone <;> simp [change_splitter, h]
  | scalar a b iha ihb => simp [change_splitter, iha, ihb]
  | outer a b iha ihb => simp [change_splitter, iha, ihb]

/-- Claim C4: for a node whose splitter is already set (stored value
`change_splitter name s0`, as both the constructor and the setter always
store), a second `split` with the same expression succeeds and leaves
the node unchanged (idempotent), while a second `split` with any
different expression raises "splitter is already set". -/
theorem split_second_call (nd : NodeBase) (s0 t : Splitter)
    (hset : nd.splitter = some (change_splitter nd.name s0)) :
    Pydra.split nd (change_splitter nd.name s0) [] = .ok nd
    ∧ (splitter_truthy (change_splitter nd.name s0) = true →
       t ≠ change_splitter nd.name s0 →
       Pydra.split nd t [] = .error "splitter is already set") := by
  constructor
  · have hidem := change_splitter_idem nd.name s0
    simp only [Pydra.split, splitter_setter, hset, hidem, ne_eq, not_true_eq_false,
      and_false, if_false, List.isEmpty_nil, if_true]
    rw [← hset]
  · intro htruthy hne
    have hcond : opt_splitter_truthy nd.splitter = true ∧
        nd.splitter ≠ some t := by
      refine ⟨by rw [hset]; exact htruthy, ?_⟩
      rw [hset]
      intro hcontr
      exact hne (Option.some.inj hcontr).symm
    simp only [Pydra.split, splitter_setter, if_pos hcond]

/-- Witness for `split_second_call` at a concrete node: splitting `A.x`
again succeeds unchanged; splitting `y` raises. -/
theorem split_second_call_witness :
    Pydra.split nd_c4 (change_splitter "A" (.leaf ⟨Option.none, "x"⟩)) [] = .ok nd_c4
    ∧ Pydra.split nd_c4 (.leaf ⟨Option.none, "y"⟩) [] = .error "splitter is already set" :=
  ⟨(split_second_call nd_c4 (.leaf ⟨Option.none, "x"⟩) (.leaf ⟨Option.none, "y"⟩) rfl).1,
   (split_second_call nd_c4 (.leaf ⟨Option.none, "x"⟩) (.leaf ⟨Option.none, "y"⟩) rfl).2
     (by decide) (by decide)⟩

/-- Claim C5 (counterexample): on a node whose combiner is already set to
`["A.x"]` (and whose splitter is set), calling `combine` again with the
*equal* combiner `["A.x"]` does not succeed — it raises "combiner is
already set", because the setter has no equality carve-out. -/
theorem combine_equal_combiner_raises :
    Pydra.combine nd_c5 (.lst [⟨some "A", "x"⟩]) = .error "combiner is already set"
    ∧ nd_c5.combiner = [⟨some "A", "x"⟩]
    ∧ opt_splitter_truthy nd_c5.splitter = true :=
  ⟨rfl, rfl, rfl⟩

/-- Claim C5 (amended): `combine` raises "combiner is already set"
whenever a non-empty combiner is stored — even for an equal combiner —
and raises "splitter has to be set before setting combiner" when no
combiner is stored but the splitter is unset (falsy). -/
theorem combine_always_raises (nd : NodeBase) (c : CombArg) :
    (nd.combiner ≠ [] → Pydra.combine nd c = .error "combiner is already set")
    ∧ (nd.combiner = [] → opt_splitter_truthy nd.splitter = false →
       Pydra.combine nd c = .error "splitter has to be set before setting combiner") := by
  constructor
  · intro h
    cases hc : nd.combiner with
    | nil => exact absurd hc h
    | cons a l => simp [Pydra.combine, combiner_setter, hc]
  · intro h1 h2
    simp [Pydra.combine, combiner_setter, h1, h2]

/-- Witness for `combine_always_raises` at the concrete node `nd_c5`. -/
theorem combine_always_raises_witness :
    Pydra.combine nd_c5 CombArg.other = .error "combiner is already set" :=
  (combine_always_raises nd_c5 CombArg.other).1 (by decide)

/-- Claim C6: `load_result` consults the roots in order; the first root
containing the checksum directory is authoritative — its result is what
the missing/empty/non-empty state of *its* result file dictates,
independent of every later root — and when no root contains the
directory (in particular when the root list is empty) the result is
None. -/
theorem load_result_first_root_authoritative (checksum : String)
    (pre post : List CacheRoot) (r : CacheRoot)
    (h1 : ∀ p ∈ pre, p.hasDir checksum = false)
    (h2 : r.hasDir checksum = true) :
    load_result checksum (pre ++ r :: post)
      = (match r.resultFile checksum with
         | some bytes => if 0 < bytes.length then some bytes else Option.none
         | Option.none => Option.none)
    ∧ ∀ roots : List CacheRoot, (∀ q ∈ roots, q.hasDir checksum = false) →
        load_result checksum roots = Option.none := by
  constructor
  · induction pre with
    | nil => simp [load_result, h2]
    | cons p ps ih =>
      have hp : p.hasDir checksum = false := h1 p (List.mem_cons_self p ps)
      simp only [List.cons_append, load_result, hp, Bool.false_eq_true, if_false]
      exact ih (fun q hq => h1 q (List.mem_cons_of_mem p hq))
  · intro roots
    induction roots with
    | nil => intro _; rfl
    | cons q qs ih =>
      intro hroots
      simp only [load_result, hroots q (List.mem_cons_self q qs), Bool.false_eq_true,
        if_false]
      exact ih (fun x hx => hroots x (List.mem_cons_of_mem q hx))

/-- Witness for `load_result_first_root_authoritative`: the second root
holds the checksum directory with an *empty* result file, so the loader
answers None even though the third root holds a non-empty result. -/
theorem load_result_first_root_authoritative_witness :
    load_result "ck" [root_miss, root_empty, root_full] = Option.none :=
  ((load_result_first_root_authoritative "ck" [root_miss] [root_full] root_empty
      (fun p hp => by rw [List.mem_singleton] at hp; rw [hp]; rfl)
      rfl).1).trans rfl

/-- Claim C10: stored outputs are read through Python truthiness, so a
falsy stored value (0, "", [], None) behaves like an absent one: if any
element's directory holds a falsy value for any output field,
`_check_all_results` is false (the node cannot become complete) — even
though the result object is present in `results_dict` — and
`get_input_el` raises the missing-output exception whenever the upstream
output it reads is falsy. -/
theorem falsy_output_treated_as_absent
    (all_elements : List (List Nat)) (state_values : List Nat → List (String × PyVal))
    (splitter_rpn inner_splitter : List String) (output_names : List String)
    (results : String → String → PyVal) (ind : List Nat) (key_out : String)
    (self_name : String) (state_dict : List (String × PyVal))
    (edges : List InEdge) (inputs_dict : List (String × PyVal)) (e : InEdge)
    (h1 : ind ∈ pyproduct all_elements) (h2 : key_out ∈ output_names)
    (h3 : truthy (results
        (directory_name_state_surv splitter_rpn inner_splitter (state_values ind)).1
        key_out) = false)
    (h4 : e ∈ edges)
    (h5 : truthy (e.from_results
        (directory_name_state_surv e.from_splitter_rpn e.from_inner_splitter state_dict).1)
        = false) :
    check_all_results all_elements state_values splitter_rpn inner_splitter
        output_names results = false
    ∧ (get_input_el_loop self_name state_dict edges inputs_dict).isOk = false := by
  constructor
  · rcases Bool.eq_false_or_eq_true (check_all_results all_elements state_values
      splitter_rpn inner_splitter output_names results) with h | h
    swap
    · exact h
    · exfalso
      unfold check_all_results at h
      have hind := List.all_eq_true.mp h ind h1
      have hkey := List.all_eq_true.mp hind key_out h2
      rw [h3] at hkey
      exact Bool.false_ne_true hkey
  · induction edges generalizing inputs_dict with
    | nil => cases h4
    | cons f rest ih =>
      unfold get_input_el_loop
      by_cases hf : truthy (f.from_results
          (directory_name_state_surv f.from_splitter_rpn f.from_inner_splitter
            state_dict).1) = true
      · rw [if_pos hf]
        rcases List.mem_cons.mp h4 with he | he
        · subst he
          rw [h5] at hf
          exact absurd hf (by simp)
        · exact ih _ he
      · rw [if_neg hf]
        rfl

/-- Witness for `falsy_output_treated_as_absent`: one element whose only
output is the falsy integer 0 keeps the node incomplete, and an upstream
edge whose stored output is the falsy empty list makes `get_input_el`
fail. -/
theorem falsy_output_treated_as_absent_witness :
    check_all_results [[0]] (fun _ => [("A.x", .int 1)]) ["A.x"] [] ["out"]
        (fun _ _ => .int 0) = false
    ∧ (get_input_el_loop "B" [("A.x", .int 1)] [edge_c10] []).isOk = false :=
  falsy_output_treated_as_absent [[0]] (fun _ => [("A.x", .int 1)]) ["A.x"] []
    ["out"] (fun _ _ => .int 0) [0] "out" "B" [("A.x", .int 1)] [edge_c10] [] edge_c10
    (by decide) (by decide) rfl (List.mem_cons_self edge_c10 []) rfl

/-- Looking a key up after overwriting one bucket in place: only that
bucket's value changes. -/
theorem assoc_find_map_overwrite (out : List (String × List PyVal)) (key q : String)
    (f : List PyVal → List PyVal) :
    assoc_find q (out.map (fun p => if p.1 = key then (p.1, f p.2) else p))
      = if q = key then (assoc_find q out).map f else assoc_find q out := by
  induction out with
  | nil => by_cases h : q = key <;> simp [assoc_find, h]
  | cons a t ih =>
    by_cases hk : a.1 = key
    · by_cases hq : a.1 = q
      · have hqk : q = key := by rw [← hq, hk]
        simp [assoc_find, hk, hq, hqk]
      · have hqk : ¬q = key := fun h => hq (by rw [hk, ← h])
        have hkq : ¬key = q := fun h => hqk h.symm
        simp [assoc_find, hk, hq, hqk, hkq, ih]
    · by_cases hq : a.1 = q
      · have hqk : ¬q = key := fun h => hk (by rw [hq, h])
        simp [assoc_find, hk, hq, hqk]
      · simp [assoc_find, hk, hq, ih]

/-- Looking a key up after appending one fresh bucket at the end. -/
theorem assoc_find_append_single (out : List (String × List PyVal)) (key q : String)
    (v : List PyVal) :
    assoc_find q (out ++ [(key, v)])
      = match assoc_find q out with
        | some w => some w
        | Option.none => if key = q then some v else Option.none := by
  induction out with
  | nil => by_cases h : key = q <;> simp [assoc_find, h]
  | cons a t ih =>
    by_cases hq : a.1 = q <;> simp [assoc_find, hq, ih]

/-- Effect of one `_combined_output` call on one bucket: the bucket for
the element's reduced key gains the element's value at its end; every
other bucket is unchanged. -/
theorem assoc_find_combined_output (comb_inp_to_remove : List String)
    (out : List (String × List PyVal)) (sd : List (String × PyVal)) (el : PyVal)
    (q : String) :
    assoc_find q (combined_output comb_inp_to_remove out sd el)
      = if q = comb_dir_name comb_inp_to_remove sd
        then some (((assoc_find q out).getD []) ++ [el])
        else assoc_find q out := by
  unfold combined_output
  by_cases hs : (assoc_find (comb_dir_name comb_inp_to_remove sd) out).isSome
  · rw [if_pos hs]
    have hmo := assoc_find_map_overwrite out (comb_dir_name comb_inp_to_remove sd) q
      (fun l => l ++ [el])
    by_cases hq : q = comb_dir_name comb_inp_to_remove sd
    · rw [if_pos hq] at hmo ⊢
      subst hq
      obtain ⟨w, hw⟩ := Option.isSome_iff_exists.mp hs
      rw [hmo, hw]
      rfl
    · rw [if_neg hq] at hmo ⊢
      exact hmo
  · rw [if_neg hs, assoc_find_append_single]
    by_cases hq : q = comb_dir_name comb_inp_to_remove sd
    · subst hq
      rw [Option.not_isSome_iff_eq_none.mp hs]
      simp
    · cases h : assoc_find q out with
      | none =>
        have : ¬comb_dir_name comb_inp_to_remove sd = q := fun hc => hq hc.symm
        simp [hq, this]
      | some w => simp [hq]

/-- Folding `_combined_output` over a list of element indices: each
bucket ends up holding exactly the values of the indices that map to its
key, in the order the indices are iterated. -/
theorem fold_comb_getD (comb_inp_to_remove splitter_rpn inner_splitter : List String)
    (state_values : List Nat → List (String × PyVal)) (results : String → PyVal)
    (inds : List (List Nat)) (acc : List (String × List PyVal)) (q : String) :
    (assoc_find q (inds.foldl (fun a ind =>
        combined_output comb_inp_to_remove a (state_values ind)
        (results (directory_name_state_surv splitter_rpn inner_splitter
          (state_values ind)).1)) acc)).getD []
      = ((assoc_find q acc).getD [])
        ++ (inds.filter (fun ind =>
              comb_dir_name comb_inp_to_remove (state_values ind) == q)).map
            (fun ind => results (directory_name_state_surv splitter_rpn inner_splitter
              (state_values ind)).1) := by
  induction inds generalizing acc with
  | nil => simp
  | cons i rest ih =>
    rw [List.foldl_cons, ih, List.filter_cons]
    by_cases hq : comb_dir_name comb_inp_to_remove (state_values i) = q
    · rw [assoc_find_combined_output, if_pos hq.symm]
      simp [hq, List.append_assoc]
    · rw [assoc_find_combined_output, if_neg (fun h => hq h.symm)]
      simp [hq]

/-- Products of pairwise-increasing axis lists are pairwise strictly
lexicographically increasing. -/
theorem pyproduct_pairwise_lex (axes : List (List Nat))
    (h : ∀ a ∈ axes, a.Pairwise (· < ·)) :
    (pyproduct axes).Pairwise (List.Lex (· < ·)) := by
  induction axes with
  | nil => simp [pyproduct]
  | cons axis rest ih =>
    unfold pyproduct
    rw [List.pairwise_flatten]
    constructor
    · intro l hl
      rw [List.mem_map] at hl
      obtain ⟨i, _, rfl⟩ := hl
      exact (ih (fun a ha => h a (List.mem_cons_of_mem _ ha))).map _
        (fun _ _ hxy => List.Lex.cons hxy)
    · rw [List.pairwise_map]
      refine (h axis (List.mem_cons_self _ _)).imp ?_
      intro i j hij x hx y hy
      rw [List.mem_map] at hx hy
      obtain ⟨t1, _, rfl⟩ := hx
      obtain ⟨t2, _, rfl⟩ := hy
      exact List.Lex.rel hij

/-- Claim C7: with `state.all_elements` the ascending ranges of the axis
sizes, `get_output` iterates the element multi-indices in lexicographic
ascending order (the product list is pairwise strictly `Lex`-increasing)
and appends each element's value to its combined bucket, so each bucket
of the combined output holds exactly the values of its elements in
lexicographic ascending multi-index order. -/
theorem get_output_combined_lex_order (shape : List Nat)
    (state_values : List Nat → List (String × PyVal))
    (splitter_rpn inner_splitter comb_inp_to_remove : List String)
    (results : String → PyVal) (q : String) :
    (assoc_find q (node_get_output_comb (shape.map List.range) state_values splitter_rpn
        inner_splitter comb_inp_to_remove results)).getD []
      = ((pyproduct (shape.map List.range)).filter
          (fun ind => comb_dir_name comb_inp_to_remove (state_values ind) == q)).map
          (fun ind => results (directory_name_state_surv splitter_rpn inner_splitter
            (state_values ind)).1)
    ∧ (pyproduct (shape.map List.range)).Pairwise (List.Lex (· < ·)) := by
  constructor
  · unfold node_get_output_comb
    rw [fold_comb_getD]
    rfl
  · refine pyproduct_pairwise_lex _ ?_
    intro a ha
    rw [List.mem_map] at ha
    obtain ⟨n, _, rfl⟩ := ha
    exact List.pairwise_lt_range n

/-- A key is found iff it occurs among the stored keys. -/
theorem assoc_find_isSome_iff {α : Type} (q : String) (m : List (String × α)) :
    (assoc_find q m).isSome = true ↔ q ∈ m.map Prod.fst := by
  induction m with
  | nil => simp [assoc_find]
  | cons a t ih =>
    by_cases h : a.1 = q
    · simp [assoc_find, h]
    · have h2 : ¬q = a.1 := fun hh => h hh.symm
      simp [assoc_find, h, ih, h2]

/-- When output collection succeeds, the exposed names (preceded by the
keys already in the accumulator) are pairwise distinct. -/
theorem wf_collect_ok_nodup (node_outputs : String → String → PyVal)
    (outs : List WfOut) (acc : List (String × PyVal))
    (hacc : (acc.map Prod.fst).Nodup)
    (hok : (wf_collect_outputs node_outputs outs acc).isOk = true) :
    ((acc.map Prod.fst) ++ outs.filterMap exposed).Nodup := by
  induction outs generalizing acc with
  | nil => simpa using hacc
  | cons o rest ih =>
    cases o with
    | badLen => exact absurd hok (by simp [wf_collect_outputs, Except.isOk, Except.toBool])
    | two n f =>
      rw [wf_collect_outputs] at hok
      by_cases hp : (assoc_find f acc).isSome
      · rw [if_pos hp] at hok
        exact absurd hok (by simp [Except.isOk, Except.toBool])
      · rw [if_neg hp] at hok
        have hf : f ∉ acc.map Prod.fst :=
          fun hin => hp ((assoc_find_isSome_iff f acc).mpr hin)
        have hacc2 : ((acc ++ [(f, node_outputs n f)]).map Prod.fst).Nodup := by
          rw [List.map_append, List.nodup_append]
          exact ⟨hacc, List.nodup_singleton _, by simpa using hf⟩
        have ih2 := ih (acc ++ [(f, node_outputs n f)]) hacc2 hok
        rw [List.map_append] at ih2
        simpa [exposed, List.append_assoc] using ih2
    | three n f w =>
      rw [wf_collect_outputs] at hok
      by_cases hp : (assoc_find w acc).isSome
      · rw [if_pos hp] at hok
        exact absurd hok (by simp [Except.isOk, Except.toBool])
      · rw [if_neg hp] at hok
        have hf : w ∉ acc.map Prod.fst :=
          fun hin => hp ((assoc_find_isSome_iff w acc).mpr hin)
        have hacc2 : ((acc ++ [(w, node_outputs n f)]).map Prod.fst).Nodup := by
          rw [List.map_append, List.nodup_append]
          exact ⟨hacc, List.nodup_singleton _, by simpa using hf⟩
        have ih2 := ih (acc ++ [(w, node_outputs n f)]) hacc2 hok
        rw [List.map_append] at ih2
        simpa [exposed, List.append_assoc] using ih2

/-- When output collection fails over well-formed entries, the failure
is the already-used-key error for some exposed name. -/
theorem wf_collect_fail_dup_msg (node_outputs : String → String → PyVal)
    (outs : List WfOut) (acc : List (String × PyVal))
    (hwf : ∀ o ∈ outs, o ≠ WfOut.badLen)
    (hfail : (wf_collect_outputs node_outputs outs acc).isOk = false) :
    ∃ w, wf_collect_outputs node_outputs outs acc
        = .error ("the key " ++ w ++ " is already used in workflow.result") := by
  induction outs generalizing acc with
  | nil => exact absurd hfail (by simp [wf_collect_outputs, Except.isOk, Except.toBool])
  | cons o rest ih =>
    cases o with
    | badLen => exact absurd rfl (hwf _ (List.mem_cons_self _ _))
    | two n f =>
      rw [wf_collect_outputs] at hfail ⊢
      by_cases hp : (assoc_find f acc).isSome
      · rw [if_pos hp]
        exact ⟨f, rfl⟩
      · rw [if_neg hp] at hfail ⊢
        exact ih _ (fun o ho => hwf o (List.mem_cons_of_mem _ ho)) hfail
    | three n f w =>
      rw [wf_collect_outputs] at hfail ⊢
      by_cases hp : (assoc_find w acc).isSome
      · rw [if_pos hp]
        exact ⟨w, rfl⟩
      · rw [if_neg hp] at hfail ⊢
        exact ih _ (fun o ho => hwf o (List.mem_cons_of_mem _ ho)) hfail

/-- Claim C8 (counterexample): on a workflow whose `wf_output_names`
expose the same name twice, `preparing` completes without any error —
the duplicate-output-name error is *not* raised at planning time and
planning does not abort. -/
theorem preparing_ignores_duplicate_output_names :
    (preparing wf8 [node_w] [] [] []).2 = Option.none
    ∧ ¬(wf8.wf_output_names.filterMap exposed).Nodup :=
  ⟨rfl, by decide⟩

/-- Claim C8 (amended): the duplicate-output-name check lives in
`Workflow.get_output`, which runs when the workflow's outputs are
collected after its nodes have run: when two well-formed entries of
`wf_output_names` expose the same name, output collection raises the
already-used-key error; `preparing` performs no such check (see the
counterexample). -/
theorem wf_get_output_duplicate_raises (node_outputs : String → String → PyVal)
    (outs : List WfOut)
    (hwf : ∀ o ∈ outs, o ≠ WfOut.badLen)
    (hdup : ¬(outs.filterMap exposed).Nodup) :
    ∃ w, wf_collect_outputs node_outputs outs []
        = .error ("the key " ++ w ++ " is already used in workflow.result") := by
  refine wf_collect_fail_dup_msg node_outputs outs [] hwf ?_
  cases h : (wf_collect_outputs node_outputs outs []).isOk with
  | false => rfl
  | true =>
    exact absurd (by simpa using wf_collect_ok_nodup node_outputs outs [] (by simp) h)
      hdup

/-- Witness for `wf_get_output_duplicate_raises` at two entries exposing
"out". -/
theorem wf_get_output_duplicate_raises_witness :
    ∃ w, wf_collect_outputs (fun _ _ => PyVal.none)
        [WfOut.two "A" "out", WfOut.two "B" "out"] []
      = .error ("the key " ++ w ++ " is already used in workflow.result") :=
  wf_get_output_duplicate_raises (fun _ _ => PyVal.none)
    [WfOut.two "A" "out", WfOut.two "B" "out"] (by decide) (by decide)

/-- Rewriting a node in place with a function that does not touch
`workingdir` or `state_prepared` leaves those projections unchanged. -/
theorem update_node_preserves (nodes : List NodeBase) (nm : String)
    (f : NodeBase → NodeBase)
    (hf : ∀ n, ((f n).workingdir, (f n).state_prepared)
        = (n.workingdir, n.state_prepared)) :
    (update_node nodes nm f).map (fun n => (n.workingdir, n.state_prepared))
      = nodes.map (fun n => (n.workingdir, n.state_prepared)) := by
  unfold update_node
  rw [List.map_map]
  refine List.map_congr_left ?_
  intro n _
  by_cases h : n.name = nm <;> simp [h, hf n]

/-- The `needed_inp_wf` loop stops at the first binding whose
workflow-level input is missing, reporting that input, and touches no
node's `workingdir` or `state_prepared`. -/
theorem prep_inputs_loop_first_missing (wfname : String)
    (wf_inputs : List (String × PyVal)) (nodes : List NodeBase)
    (needed : List (String × String × String)) (node_nm inp_wf inp_nd : String)
    (hfind : needed.find? (fun b =>
        (assoc_find (wfname ++ "." ++ b.2.1) wf_inputs).isNone)
      = some (node_nm, inp_wf, inp_nd)) :
    (prep_inputs_loop wfname wf_inputs nodes needed).2
        = some (wfname ++ "." ++ inp_wf ++ " not in the workflow inputs")
    ∧ (prep_inputs_loop wfname wf_inputs nodes needed).1.map
        (fun n => (n.workingdir, n.state_prepared))
      = nodes.map (fun n => (n.workingdir, n.state_prepared)) := by
  induction needed generalizing nodes with
  | nil => exact absurd hfind (by simp)
  | cons b rest ih =>
    obtain ⟨n1, i1, d1⟩ := b
    by_cases hmiss : (assoc_find (wfname ++ "." ++ i1) wf_inputs).isNone = true
    · rw [List.find?_cons_of_pos _ (by simpa using hmiss)] at hfind
      have hinj := Option.some.inj hfind
      have hi : i1 = inp_wf := congrArg (fun t => t.2.1) hinj
      have hnone : assoc_find (wfname ++ "." ++ i1) wf_inputs = Option.none :=
        Option.isNone_iff_eq_none.mp hmiss
      simp only [prep_inputs_loop, hnone]
      refine ⟨?_, by simp⟩
      rw [hi]
    · rw [List.find?_cons_of_neg _ (by simpa using hmiss)] at hfind
      have hsome : (assoc_find (wfname ++ "." ++ i1) wf_inputs).isSome = true := by
        cases h : assoc_find (wfname ++ "." ++ i1) wf_inputs with
        | none => exact absurd (by rw [h]; rfl) hmiss
        | some v => rfl
      obtain ⟨v, hv⟩ := Option.isSome_iff_exists.mp hsome
      simp only [prep_inputs_loop, hv]
      refine ⟨(ih _ hfind).1, ((ih _ hfind).2).trans ?_⟩
      exact update_node_preserves nodes n1 _ (fun n => rfl)

/-- Claim C9: when some binding recorded by `connect_wf_input` names a
workflow-level input absent from the `wf_inputs` mapping, `preparing`
raises the "... not in the workflow inputs" exception identifying the
(first) missing input, and it does so before the per-node loop runs: no
child node's working directory is set and no child's state is prepared. -/
theorem preparing_missing_wf_input (wf : WfPrep) (nodes : List NodeBase)
    (wf_inputs wf_inputs_ind st_inputs : List (String × PyVal))
    (node_nm inp_wf inp_nd : String)
    (hfind : wf.needed_inp_wf.find? (fun b =>
        (assoc_find (wf.name ++ "." ++ b.2.1) wf_inputs).isNone)
      = some (node_nm, inp_wf, inp_nd)) :
    (preparing wf nodes wf_inputs wf_inputs_ind st_inputs).2
        = some (wf.name ++ "." ++ inp_wf ++ " not in the workflow inputs")
    ∧ (preparing wf nodes wf_inputs wf_inputs_ind st_inputs).1.map
        (fun n => (n.workingdir, n.state_prepared))
      = nodes.map (fun n => (n.workingdir, n.state_prepared)) := by
  obtain ⟨h1, h2⟩ := prep_inputs_loop_first_missing wf.name wf_inputs nodes
    wf.needed_inp_wf node_nm inp_wf inp_nd hfind
  unfold preparing
  cases hp : prep_inputs_loop wf.name wf_inputs nodes wf.needed_inp_wf with
  | mk nodes1 err1 =>
    rw [hp] at h1 h2
    cases err1 with
    | none => exact absurd h1 (by simp)
    | some e => exact ⟨h1, h2⟩

/-- Witness for `preparing_missing_wf_input`: workflow `wf9` binds the
workflow input `in1`, which is absent from the empty `wf_inputs`;
preparing reports it and leaves the child untouched. -/
theorem preparing_missing_wf_input_witness :
    (preparing wf9 [node_w] [] [] []).2 = some ("wf" ++ "." ++ "in1" ++ " not in the workflow inputs")
    ∧ (preparing wf9 [node_w] [] [] []).1.map
        (fun n => (n.workingdir, n.state_prepared))
      = [node_w].map (fun n => (n.workingdir, n.state_prepared)) :=
  preparing_missing_wf_input wf9 [node_w] [] [] [] "A" "in1" "a" rfl

end Pydra

